import Mathlib

/-!
Shallow embedding of the configuration resolver (`ConfigReader`) of a
Playwright page-object test repository, together with its static
environment table (`test.config.ts`).

Modelling conventions:
* `process.env` is modelled as `Env := String → Option String`
  (`none` = variable absent, `some ""` = present but empty).
* JavaScript truthiness on strings (`x || y`, `if (x)`) is modelled by
  `tsOrOpt` / `truthy`: the empty string is falsy.
* The TypeScript `Record<string, _>` objects are modelled as association
  lists in literal insertion order, matching `Object.keys` enumeration.
* Thrown `Error(msg)` is modelled as `Except.error msg`; the mutable
  static fields (`cache`, `cacheEnabled`, `currentEnvironment`) are an
  explicit `ReaderState` threaded through the operations.
-/

/-- A `{username, password}` pair (interface `Credentials`). -/
structure Credentials where
  username : String
  password : String
deriving DecidableEq, Repr

/-- Structured URL components (interface `UrlConfig`). -/
structure UrlConfig where
  protocol : String
  envPrefix : String
  subdomain : String
  domain : String
deriving DecidableEq, Repr

/-- One environment's configuration (interface `TestEnvironmentConfig`).
`domainPaths` and `credentials` are association lists in insertion order. -/
structure TestEnvironmentConfig where
  name : String
  baseUrl : String
  urlConfig : Option UrlConfig
  domainPaths : List (String × String)
  credentials : List (String × Credentials)
deriving DecidableEq, Repr

/-- The environment table (`testConfig.environments`), keyed by name. -/
abbrev Table := List (String × TestEnvironmentConfig)

/-- The external override source (`process.env`). -/
abbrev Env := String → Option String

/-- The override source with every slot absent. -/
def emptyEnv : Env := fun _ => none

/-- JavaScript `a || d` where `a : string | undefined`: the empty string and
`undefined` both fall through to the default. -/
def tsOrOpt : Option String → String → String
  | some v, d => if v = "" then d else v
  | none, d => d

/-- JavaScript truthiness of `a : string | undefined`. -/
def truthy : Option String → Bool
  | some v => v != ""
  | none => false

/-- First-match association-list lookup (object property access). -/
def lookupStr {α : Type} : List (String × α) → String → Option α
  | [], _ => none
  | (k, v) :: rest, key => if k = key then some v else lookupStr rest key

/-- `Array.prototype.join(", ")` over a list of strings. -/
def joinComma : List String → String
  | [] => ""
  | [x] => x
  | x :: y :: rest => x ++ ", " ++ joinComma (y :: rest)

/-- `Map.set`: replace the binding of `key` if present, else append. -/
def cacheSet : List (String × TestEnvironmentConfig) → String →
    TestEnvironmentConfig → List (String × TestEnvironmentConfig)
  | [], key, v => [(key, v)]
  | (k, v') :: rest, key, v =>
      if k = key then (key, v) :: rest else (k, v') :: cacheSet rest key v

namespace ConfigReader

/-- The mutable static fields of `ConfigReader`. -/
structure ReaderState where
  cache : List (String × TestEnvironmentConfig)
  cacheEnabled : Bool
  currentEnvironment : Option String
deriving DecidableEq, Repr

/-- The state at process start: empty cache, caching on, no explicit
environment. -/
def initialState : ReaderState := ⟨[], true, none⟩

/-- `ConfigReader.clearCache`: clears the cache map and sets
`currentEnvironment = null`. -/
def clearCache (st : ReaderState) : ReaderState :=
  { st with cache := [], currentEnvironment := none }

/-- `ConfigReader.setCaching`: sets the flag; disabling also clears the
cache (via `clearCache`). -/
def setCaching (st : ReaderState) (enabled : Bool) : ReaderState :=
  let st1 := { st with cacheEnabled := enabled }
  if enabled then st1 else clearCache st1

/-- `ConfigReader.getEnvironmentName`: the explicitly-set name if truthy,
else `process.env.TEST_ENV || 'QA'`. -/
def getEnvironmentName (st : ReaderState) (ev : Env) : String :=
  match st.currentEnvironment with
  | some c => if c = "" then tsOrOpt (ev "TEST_ENV") "QA" else c
  | none => tsOrOpt (ev "TEST_ENV") "QA"

/-- `Object.keys(testConfig.environments)`. -/
def availableEnvironments (tbl : Table) : List String := tbl.map Prod.fst

/-- `ConfigReader.hasEnvironment`: `envName in testConfig.environments`. -/
def hasEnvironment (tbl : Table) (envName : String) : Bool :=
  (lookupStr tbl envName).isSome

/-- `ConfigReader.setEnvironment`: validates membership, then assigns
`currentEnvironment` and calls `clearCache()` — which nulls
`currentEnvironment` again, exactly as the source does. -/
def setEnvironment (tbl : Table) (st : ReaderState) (envName : String) :
    Except String ReaderState :=
  if hasEnvironment tbl envName then
    Except.ok (clearCache { st with currentEnvironment := some envName })
  else
    Except.error ("Environment \"" ++ envName ++
      "\" not found. Available environments: " ++
      joinComma (availableEnvironments tbl))

/-- The `envName || this.getEnvironmentName()` computation shared by the
lookup operations (an explicitly-passed empty name falls through). -/
def resolveName (ev : Env) (st : ReaderState) (envName : Option String) :
    String :=
  match envName with
  | some e => if e = "" then getEnvironmentName st ev else e
  | none => getEnvironmentName st ev

/-- The `Environment ... not found in test.config.ts` message of
`getEnvironmentConfig`. -/
def unknownEnvMsg (tbl : Table) (env : String) : String :=
  "Environment \"" ++ env ++ "\" not found in test.config.ts. Available: " ++
    joinComma (availableEnvironments tbl)

/-- `ConfigReader.getEnvironmentConfig`: cache lookup under key
`env_<name>` when caching is enabled, then table lookup, caching the
result when enabled. -/
def getEnvironmentConfig (tbl : Table) (ev : Env) (st : ReaderState)
    (envName : Option String) :
    Except String (TestEnvironmentConfig × ReaderState) :=
  let env := resolveName ev st envName
  let cacheKey := "env_" ++ env
  match (if st.cacheEnabled then lookupStr st.cache cacheKey else none) with
  | some c => Except.ok (c, st)
  | none =>
    match lookupStr tbl env with
    | none => Except.error (unknownEnvMsg tbl env)
    | some config =>
        if st.cacheEnabled then
          Except.ok (config, { st with cache := cacheSet st.cache cacheKey config })
        else
          Except.ok (config, st)

/-- `ConfigReader.buildBaseUrl`: prefix from
`envPrefixOverride || process.env.ENV_PREFIX || urlConfig.envPrefix`,
subdomain from `process.env.SUBDOMAIN || urlConfig.subdomain`, yielding
`protocol://<prefix><subdomain>.<domain>`. -/
def buildBaseUrl (ev : Env) (urlConfig : UrlConfig)
    (envPrefixOverride : Option String) : String :=
  let pfx := tsOrOpt envPrefixOverride (tsOrOpt (ev "ENV_PREFIX") urlConfig.envPrefix)
  let sub := tsOrOpt (ev "SUBDOMAIN") urlConfig.subdomain
  urlConfig.protocol ++ "://" ++ pfx ++ sub ++ "." ++ urlConfig.domain

/-- `ConfigReader.getBaseUrl`: `process.env.BASE_URL` when truthy, else
built from `urlConfig`, else the legacy `baseUrl` when truthy, else an
error naming the environment. -/
def getBaseUrl (tbl : Table) (ev : Env) (st : ReaderState)
    (envName : Option String) : Except String (String × ReaderState) :=
  if truthy (ev "BASE_URL") then
    Except.ok ((ev "BASE_URL").getD "", st)
  else
    match getEnvironmentConfig tbl ev st envName with
    | Except.error e => Except.error e
    | Except.ok (config, st') =>
      match config.urlConfig with
      | some uc => Except.ok (buildBaseUrl ev uc none, st')
      | none =>
          if config.baseUrl = "" then
            Except.error ("No baseUrl or urlConfig found for environment: " ++
              config.name)
          else
            Except.ok (config.baseUrl, st')

/-- The `Domain path ... not found` message of `getDomainPath`. -/
def unknownPathMsg (config : TestEnvironmentConfig) (pathKey : String) :
    String :=
  "Domain path \"" ++ pathKey ++ "\" not found for environment \"" ++
    config.name ++ "\". Available paths: " ++
    joinComma (config.domainPaths.map Prod.fst)

/-- `ConfigReader.getDomainPath`: property lookup in `domainPaths`; the
`if (!path)` guard also rejects a present-but-empty path value. -/
def getDomainPath (tbl : Table) (ev : Env) (st : ReaderState)
    (pathKey : String) (envName : Option String) :
    Except String (String × ReaderState) :=
  match getEnvironmentConfig tbl ev st envName with
  | Except.error e => Except.error e
  | Except.ok (config, st') =>
    match lookupStr config.domainPaths pathKey with
    | none => Except.error (unknownPathMsg config pathKey)
    | some p =>
        if p = "" then Except.error (unknownPathMsg config pathKey)
        else Except.ok (p, st')

/-- `baseUrl.replace(/\/$/, '')`: drop a single trailing slash
(stated on the character list so that it evaluates). -/
def cleanBase (s : String) : String :=
  if s.data.getLast? = some '/' then String.mk s.data.dropLast else s

/-- `path.startsWith('/') ? path : '/' + path`. -/
def cleanPath (s : String) : String :=
  if s.data.head? = some '/' then s else "/" ++ s

/-- `ConfigReader.getUrl`: base URL with a trailing slash stripped,
concatenated with the path coerced to a leading slash. -/
def getUrl (tbl : Table) (ev : Env) (st : ReaderState) (pathKey : String)
    (envName : Option String) : Except String (String × ReaderState) :=
  match getBaseUrl tbl ev st envName with
  | Except.error e => Except.error e
  | Except.ok (baseUrl, st1) =>
    match getDomainPath tbl ev st1 pathKey envName with
    | Except.error e => Except.error e
    | Except.ok (path, st2) =>
        Except.ok (cleanBase baseUrl ++ cleanPath path, st2)

/-- `credentialKey.toUpperCase().replace(/[^A-Z0-9]/g, '_')` — the
derived override-slot prefix (ASCII upper-casing, as all keys are ASCII). -/
def deriveOverrideKey (credentialKey : String) : String :=
  String.mk (credentialKey.toList.map (fun c =>
    let u := c.toUpper
    if (('A' ≤ u ∧ u ≤ 'Z') ∨ ('0' ≤ u ∧ u ≤ '9')) then u else '_'))

/-- The `Credentials ... not found` message of `getCredentials`. -/
def unknownCredMsg (config : TestEnvironmentConfig) (credentialKey : String) :
    String :=
  "Credentials \"" ++ credentialKey ++ "\" not found for environment \"" ++
    config.name ++ "\". Available: " ++
    joinComma (config.credentials.map Prod.fst)

/-- `ConfigReader.getCredentials`: lookup in `credentials`, then per-field
override from `<PREFIX>_USERNAME` / `<PREFIX>_PASSWORD` where `PREFIX` is
`deriveOverrideKey credentialKey` (each field `override || table value`). -/
def getCredentials (tbl : Table) (ev : Env) (st : ReaderState)
    (credentialKey : String) (envName : Option String) :
    Except String (Credentials × ReaderState) :=
  match getEnvironmentConfig tbl ev st envName with
  | Except.error e => Except.error e
  | Except.ok (config, st') =>
    match lookupStr config.credentials credentialKey with
    | none => Except.error (unknownCredMsg config credentialKey)
    | some credentials =>
        let envKeyPfx := deriveOverrideKey credentialKey
        let usernameOverride := ev (envKeyPfx ++ "_USERNAME")
        let passwordOverride := ev (envKeyPfx ++ "_PASSWORD")
        Except.ok
          ({ username := tsOrOpt usernameOverride credentials.username,
             password := tsOrOpt passwordOverride credentials.password }, st')

/-- The per-credential-pair half of `validateConfig`'s loop body:
`if (!cred.username || !cred.password) throw`. -/
def validateCreds (envName : String) : List (String × Credentials) →
    Except String Unit
  | [] => Except.ok ()
  | (credKey, cred) :: rest =>
      if cred.username = "" ∨ cred.password = "" then
        Except.error ("Credentials \"" ++ credKey ++ "\" in environment \"" ++
          envName ++ "\" missing username or password")
      else validateCreds envName rest

/-- The per-environment body of `validateConfig`'s loop (the
`!config.domainPaths` / `!config.credentials` object-truthiness checks can
never fire on a typed record value and are omitted). -/
def validateEnv (envName : String) (config : TestEnvironmentConfig) :
    Except String Unit :=
  if config.name = "" then
    Except.error ("Environment \"" ++ envName ++ "\" missing required field: name")
  else if config.baseUrl = "" then
    Except.error ("Environment \"" ++ envName ++ "\" missing required field: baseUrl")
  else
    match
      (match config.urlConfig with
       | none => Except.ok ()
       | some uc =>
          if uc.protocol = "" then
            Except.error ("Environment \"" ++ envName ++
              "\" urlConfig missing required field: protocol")
          else if uc.envPrefix = "" then
            Except.error ("Environment \"" ++ envName ++
              "\" urlConfig missing required field: envPrefix")
          else if uc.subdomain = "" then
            Except.error ("Environment \"" ++ envName ++
              "\" urlConfig missing required field: subdomain")
          else if uc.domain = "" then
            Except.error ("Environment \"" ++ envName ++
              "\" urlConfig missing required field: domain")
          else Except.ok ()) with
    | Except.error e => Except.error e
    | Except.ok _ =>
      if config.domainPaths.isEmpty then
        Except.error ("Environment \"" ++ envName ++ "\" has no domain paths defined")
      else if config.credentials.isEmpty then
        Except.error ("Environment \"" ++ envName ++ "\" has no credentials defined")
      else validateCreds envName config.credentials

/-- The `for (const envName of environments)` loop of `validateConfig`. -/
def validateEnvs : Table → Except String Unit
  | [] => Except.ok ()
  | (envName, config) :: rest =>
      match validateEnv envName config with
      | Except.error e => Except.error e
      | Except.ok _ => validateEnvs rest

/-- `ConfigReader.validateConfig`: non-empty table, then the per-environment
checks in order; returns `true` when all pass. -/
def validateConfig (tbl : Table) : Except String Bool :=
  if tbl.isEmpty then
    Except.error "No environments defined in test.config.ts"
  else
    match validateEnvs tbl with
    | Except.error e => Except.error e
    | Except.ok _ => Except.ok true

end ConfigReader

/-- The `dev` environment of `test.config.ts`. -/
def devConfig : TestEnvironmentConfig :=
  { name := "Development"
    baseUrl := ""
    urlConfig := some ⟨"https", "dev", "repohighway", "devservices.dh.com"⟩
    domainPaths := [("site", "DEV"), ("highway", "repohighway"),
      ("login", "/go.aspx"), ("home", "/home"), ("logout", "/logout"),
      ("settings", "/settings")]
    credentials := [("admin", ⟨"admin@example.com", "Admin123!"⟩),
      ("testUser1", ⟨"testuser1@example.com", "TestUser123!"⟩),
      ("testUser2", ⟨"testuser2@example.com", "TestUser456!"⟩),
      ("readOnlyUser", ⟨"readonly@example.com", "ReadOnly123!"⟩)] }

/-- The `QA` environment of `test.config.ts`. -/
def qaConfig : TestEnvironmentConfig :=
  { name := "QA"
    baseUrl := ""
    urlConfig := some ⟨"https", "qa2", "repohighway", "devservices.dh.com"⟩
    domainPaths := [("site", "QA"), ("highway", "repohighway"),
      ("login", "/go.aspx"), ("home", "/home"), ("logout", "/logout"),
      ("settings", "/settings")]
    credentials := [("RBCClient", ⟨"MIJIRBC", "Assetuse@1"⟩),
      ("TDFClient", ⟨"MIJITDF", "Assetuse@2"⟩),
      ("testUser2", ⟨"staginguser2@example.com", "StagingUser456!"⟩),
      ("readOnlyUser", ⟨"readonly@example.com", "ReadOnly123!"⟩)] }

/-- The `prod` environment of `test.config.ts`. -/
def prodConfig : TestEnvironmentConfig :=
  { name := "Production"
    baseUrl := ""
    urlConfig := some ⟨"https", "prod", "repohighway", "dh.com"⟩
    domainPaths := [("site", "PROD"), ("highway", "repohighway"),
      ("login", "/go.aspx"), ("home", "/home"), ("logout", "/logout"),
      ("settings", "/settings")]
    credentials := [("admin", ⟨"prod.admin@example.com", "ProdAdmin123!"⟩),
      ("testUser1", ⟨"produser1@example.com", "ProdUser123!"⟩),
      ("testUser2", ⟨"produser2@example.com", "ProdUser456!"⟩),
      ("readOnlyUser", ⟨"prod.readonly@example.com", "ProdReadOnly123!"⟩)] }

/-- The `local` environment of `test.config.ts` (legacy `baseUrl`, no
`urlConfig`). -/
def localConfig : TestEnvironmentConfig :=
  { name := "Local"
    baseUrl := "http://localhost:3000"
    urlConfig := none
    domainPaths := [("site", "LOCAL"), ("highway", "repohighway"),
      ("login", "/login"), ("home", "/home"), ("logout", "/logout"),
      ("settings", "/settings")]
    credentials := [("admin", ⟨"admin@localhost", "local123"⟩),
      ("testUser1", ⟨"test@localhost", "test123"⟩),
      ("testUser2", ⟨"user@localhost", "user123"⟩),
      ("readOnlyUser", ⟨"readonly@localhost", "readonly123"⟩)] }

/-- `testConfig.environments` in declaration order. -/
def testConfig : Table :=
  [("dev", devConfig), ("QA", qaConfig), ("prod", prodConfig),
   ("local", localConfig)]

/-- A cache whose every `env_<e>` entry agrees with the table: the invariant
the resolver's own insertions maintain, assumed where a theorem lets the
starting cache be arbitrary. -/
def cacheConsistent (tbl : Table) (st : ConfigReader.ReaderState) : Prop :=
  ∀ e c, lookupStr st.cache ("env_" ++ e) = some c → lookupStr tbl e = some c

/-- Modelled from the spec: `stripTrailingSlash` — the base URL with a single
trailing slash (if any) stripped. -/
def stripTrailingSlash (s : String) : String :=
  if s.data.getLast? = some '/' then String.mk s.data.dropLast else s

/-- Modelled from the spec: `ensureLeadingSlash` — the path prefixed by `/`
unless it already starts with one. -/
def ensureLeadingSlash (s : String) : String :=
  if s.data.head? = some '/' then s else "/" ++ s

/-- Modelled from the spec: the section-3 invariants on an environment table
(at least one path, at least one credential set, every credential pair has
non-empty username and password, all four urlParts fields non-empty whenever
urlParts is present, legacy base URL present and non-empty whenever urlParts
is absent). -/
def specTableInvariants (tbl : Table) : Bool :=
  tbl.all (fun p =>
    !p.2.domainPaths.isEmpty &&
    !p.2.credentials.isEmpty &&
    p.2.credentials.all (fun cr => cr.2.username != "" && cr.2.password != "") &&
    (match p.2.urlConfig with
     | some uc => uc.protocol != "" && uc.envPrefix != "" &&
         uc.subdomain != "" && uc.domain != ""
     | none => p.2.baseUrl != ""))

/-- An override source with every present-but-empty slot replaced by an
absent one (used to state that empty overrides behave as absent). -/
def normalizeEnv (ev : Env) : Env := fun s =>
  match ev s with
  | some v => if v = "" then none else some v
  | none => none

/-- An override source with only the full-base-URL slot set. -/
def baseOvEnv : Env :=
  fun s => if s = "BASE_URL" then some "http://override.example" else none

/-- An override source whose full-base-URL slot ends in a slash. -/
def slashOvEnv : Env :=
  fun s => if s = "BASE_URL" then some "http://x/" else none

/-- An override source with only the derived username-override slot for
credential key `RBCClient` set. -/
def rbcUserOvEnv : Env :=
  fun s => if s = "RBCCLIENT_USERNAME" then some "override.user" else none

/-- A one-environment table entry whose `credentials` mapping is empty (its
other fields well-formed). -/
def emptyCredConfig : TestEnvironmentConfig :=
  { name := "E1"
    baseUrl := "http://x"
    urlConfig := none
    domainPaths := [("login", "/l")]
    credentials := [] }

/-- Association-list lookup only returns pairs of the list. -/
theorem lookupStr_mem {α : Type} (l : List (String × α)) (k : String) (v : α)
    (h : lookupStr l k = some v) : (k, v) ∈ l := by
  induction l with
  | nil => simp [lookupStr] at h
  | cons p rest ih =>
    obtain ⟨k', v'⟩ := p
    by_cases hk : k' = k
    · subst hk
      simp [lookupStr] at h
      simp [h]
    · simp [lookupStr, hk] at h
      exact List.mem_cons_of_mem _ (ih h)

/-- The empty cache is consistent with every table. -/
theorem initial_cacheConsistent (tbl : Table) :
    cacheConsistent tbl ConfigReader.initialState := by
  intro e c h
  simp [ConfigReader.initialState, lookupStr] at h

/-- An explicitly-passed non-empty name is the resolved name. -/
theorem resolveName_some (ev : Env) (st : ConfigReader.ReaderState)
    (e : String) (he : e ≠ "") :
    ConfigReader.resolveName ev st (some e) = e := by
  simp [ConfigReader.resolveName, he]

/-- On a consistent cache, the value returned by `getEnvironmentConfig` is the
table lookup of the resolved name (or the unknown-environment error). -/
theorem getEnvironmentConfig_fst (tbl : Table) (ev : Env)
    (st : ConfigReader.ReaderState) (envName : Option String)
    (h : cacheConsistent tbl st) :
    (ConfigReader.getEnvironmentConfig tbl ev st envName).map Prod.fst =
      match lookupStr tbl (ConfigReader.resolveName ev st envName) with
      | some c => Except.ok c
      | none =>
          Except.error (ConfigReader.unknownEnvMsg tbl
            (ConfigReader.resolveName ev st envName)) := by
  cases hen : st.cacheEnabled with
  | false =>
    cases ht : lookupStr tbl (ConfigReader.resolveName ev st envName) with
    | none => simp [ConfigReader.getEnvironmentConfig, hen, ht, Except.map]
    | some config => simp [ConfigReader.getEnvironmentConfig, hen, ht, Except.map]
  | true =>
    cases hc : lookupStr st.cache
        ("env_" ++ ConfigReader.resolveName ev st envName) with
    | some c =>
      have htbl := h _ _ hc
      simp [ConfigReader.getEnvironmentConfig, hen, hc, htbl, Except.map]
    | none =>
      cases ht : lookupStr tbl (ConfigReader.resolveName ev st envName) with
      | none => simp [ConfigReader.getEnvironmentConfig, hen, hc, ht, Except.map]
      | some config =>
        simp [ConfigReader.getEnvironmentConfig, hen, hc, ht, Except.map]

/-- On a consistent cache, a name present in the table resolves to its table
entry (with some successor state). -/
theorem getEnvironmentConfig_ok (tbl : Table) (ev : Env)
    (st : ConfigReader.ReaderState) (name : String)
    (cfg : TestEnvironmentConfig) (h : cacheConsistent tbl st)
    (hname : lookupStr tbl name = some cfg) (hne : name ≠ "") :
    ∃ st', ConfigReader.getEnvironmentConfig tbl ev st (some name) =
      Except.ok (cfg, st') := by
  have hv := getEnvironmentConfig_fst tbl ev st (some name) h
  rw [resolveName_some ev st name hne, hname] at hv
  cases hge : ConfigReader.getEnvironmentConfig tbl ev st (some name) with
  | error e => rw [hge] at hv; simp [Except.map] at hv
  | ok p =>
    obtain ⟨c1, st'⟩ := p
    rw [hge] at hv
    simp [Except.map] at hv
    subst hv
    exact ⟨st', rfl⟩

/-- On a consistent cache, a name absent from the table yields the
unknown-environment error. -/
theorem getEnvironmentConfig_err (tbl : Table) (ev : Env)
    (st : ConfigReader.ReaderState) (name : String) (h : cacheConsistent tbl st)
    (hname : lookupStr tbl name = none) (hne : name ≠ "") :
    ConfigReader.getEnvironmentConfig tbl ev st (some name) =
      Except.error (ConfigReader.unknownEnvMsg tbl name) := by
  have hv := getEnvironmentConfig_fst tbl ev st (some name) h
  rw [resolveName_some ev st name hne, hname] at hv
  cases hge : ConfigReader.getEnvironmentConfig tbl ev st (some name) with
  | error e => rw [hge] at hv; simp [Except.map] at hv; rw [hv]
  | ok p => rw [hge] at hv; simp [Except.map] at hv

/-- Replacing an empty slot by an absent one does not change `a || d`. -/
theorem tsOrOpt_normalize (ev : Env) (s d : String) :
    tsOrOpt (normalizeEnv ev s) d = tsOrOpt (ev s) d := by
  cases h : ev s with
  | none => simp [normalizeEnv, h]
  | some v =>
    by_cases hv : v = ""
    · simp [normalizeEnv, h, hv, tsOrOpt]
    · simp [normalizeEnv, h, hv, tsOrOpt]

/-- Replacing an empty slot by an absent one does not change truthiness. -/
theorem truthy_normalize (ev : Env) (s : String) :
    truthy (normalizeEnv ev s) = truthy (ev s) := by
  cases h : ev s with
  | none => simp [normalizeEnv, h]
  | some v =>
    by_cases hv : v = ""
    · simp [normalizeEnv, h, hv, truthy]
    · simp [normalizeEnv, h, hv, truthy]

/-- On a truthy slot, normalization preserves the slot's value. -/
theorem getD_normalize (ev : Env) (s : String) (ht : truthy (ev s) = true) :
    (normalizeEnv ev s).getD "" = (ev s).getD "" := by
  cases h : ev s with
  | none => rw [h] at ht; simp [truthy] at ht
  | some v =>
    rw [h] at ht
    simp [truthy] at ht
    simp [normalizeEnv, h, ht]

/-- Normalization does not change the resolved environment name. -/
theorem getEnvironmentName_normalize (st : ConfigReader.ReaderState)
    (ev : Env) :
    ConfigReader.getEnvironmentName st (normalizeEnv ev) =
      ConfigReader.getEnvironmentName st ev := by
  unfold ConfigReader.getEnvironmentName
  rw [tsOrOpt_normalize]

/-- Normalization does not change name resolution. -/
theorem resolveName_normalize (ev : Env) (st : ConfigReader.ReaderState)
    (envName : Option String) :
    ConfigReader.resolveName (normalizeEnv ev) st envName =
      ConfigReader.resolveName ev st envName := by
  unfold ConfigReader.resolveName
  rw [getEnvironmentName_normalize]

/-- Normalization does not change environment resolution at all. -/
theorem getEnvironmentConfig_normalize (tbl : Table) (ev : Env)
    (st : ConfigReader.ReaderState) (envName : Option String) :
    ConfigReader.getEnvironmentConfig tbl (normalizeEnv ev) st envName =
      ConfigReader.getEnvironmentConfig tbl ev st envName := by
  unfold ConfigReader.getEnvironmentConfig
  rw [resolveName_normalize]

/-- Normalization does not change `buildBaseUrl` (its `ENV_PREFIX` and
`SUBDOMAIN` slots read through `||`). -/
theorem buildBaseUrl_normalize (ev : Env) (uc : UrlConfig)
    (po : Option String) :
    ConfigReader.buildBaseUrl (normalizeEnv ev) uc po =
      ConfigReader.buildBaseUrl ev uc po := by
  unfold ConfigReader.buildBaseUrl
  rw [tsOrOpt_normalize, tsOrOpt_normalize]

/-- Normalization does not change `getBaseUrl` (its `BASE_URL` slot). -/
theorem getBaseUrl_normalize (tbl : Table) (ev : Env)
    (st : ConfigReader.ReaderState) (envName : Option String) :
    ConfigReader.getBaseUrl tbl (normalizeEnv ev) st envName =
      ConfigReader.getBaseUrl tbl ev st envName := by
  unfold ConfigReader.getBaseUrl
  rw [truthy_normalize, getEnvironmentConfig_normalize]
  cases ht : truthy (ev "BASE_URL") with
  | true =>
    simp only [if_pos]
    rw [getD_normalize ev "BASE_URL" ht]
  | false =>
    simp only [Bool.false_eq_true, if_neg, if_false]
    cases ConfigReader.getEnvironmentConfig tbl ev st envName with
    | error e => rfl
    | ok p =>
      cases huc : p.1.urlConfig with
      | some uc => simp [huc, buildBaseUrl_normalize]
      | none => simp [huc]

/-- Normalization does not change `getCredentials` (its derived
username/password override slots read through `||`). -/
theorem getCredentials_normalize (tbl : Table) (ev : Env)
    (st : ConfigReader.ReaderState) (ck : String) (envName : Option String) :
    ConfigReader.getCredentials tbl (normalizeEnv ev) st ck envName =
      ConfigReader.getCredentials tbl ev st ck envName := by
  unfold ConfigReader.getCredentials
  rw [getEnvironmentConfig_normalize]
  simp only [tsOrOpt_normalize]

/-- C1: `getCredentials` derives the override-slot prefix by upper-casing the
credential key and replacing every character outside A-Z0-9 with an
underscore (for `RBCClient` the prefix is `RBCCLIENT`), and replaces each
credential field independently: with the username-override slot set
(non-empty) and the password-override slot absent, the returned username is
the override value and the returned password is the table value. -/
theorem getCredentials_perFieldOverride :
    ConfigReader.deriveOverrideKey "RBCClient" = "RBCCLIENT" ∧
    ∀ (tbl : Table) (ev : Env) (st : ConfigReader.ReaderState)
      (name ck u : String) (cfg : TestEnvironmentConfig) (cred : Credentials),
      cacheConsistent tbl st → name ≠ "" →
      lookupStr tbl name = some cfg →
      lookupStr cfg.credentials ck = some cred →
      ev (ConfigReader.deriveOverrideKey ck ++ "_USERNAME") = some u → u ≠ "" →
      ev (ConfigReader.deriveOverrideKey ck ++ "_PASSWORD") = none →
      (ConfigReader.getCredentials tbl ev st ck (some name)).map Prod.fst =
        Except.ok ⟨u, cred.password⟩ := by
  constructor
  · decide
  · intro tbl ev st name ck u cfg cred h hne hname hcred hu hune hp
    obtain ⟨st', hge⟩ := getEnvironmentConfig_ok tbl ev st name cfg h hname hne
    simp [ConfigReader.getCredentials, hge, hcred, hu, hune, hp, tsOrOpt,
      Except.map]

/-- C1 witness: on the shipped table, with only `RBCCLIENT_USERNAME` set,
`getCredentials("RBCClient", "QA")` returns the override username and the
table password. -/
theorem getCredentials_perFieldOverride_witness :
    (ConfigReader.getCredentials testConfig rbcUserOvEnv
      ConfigReader.initialState "RBCClient" (some "QA")).map Prod.fst =
      Except.ok ⟨"override.user", "Assetuse@1"⟩ :=
  getCredentials_perFieldOverride.2 testConfig rbcUserOvEnv
    ConfigReader.initialState "QA" "RBCClient" "override.user" qaConfig
    ⟨"MIJIRBC", "Assetuse@1"⟩ (initial_cacheConsistent _) (by decide)
    (by decide) (by decide) (by decide) (by decide) (by decide)

/-- C2: `getBaseUrl` precedence, first match winning: (1) a truthy full
`BASE_URL` override is returned verbatim; (2) else `buildBaseUrl` of a
present `urlConfig`; (3) else a non-empty legacy `baseUrl`; (4) else the
missing-base-URL error naming the environment. -/
theorem getBaseUrl_precedence (tbl : Table) (ev : Env)
    (st : ConfigReader.ReaderState) (name : String)
    (cfg : TestEnvironmentConfig) (h : cacheConsistent tbl st)
    (hname : lookupStr tbl name = some cfg) (hne : name ≠ "") :
    (∀ b, ev "BASE_URL" = some b → b ≠ "" →
      (ConfigReader.getBaseUrl tbl ev st (some name)).map Prod.fst =
        Except.ok b) ∧
    (truthy (ev "BASE_URL") = false → ∀ uc, cfg.urlConfig = some uc →
      (ConfigReader.getBaseUrl tbl ev st (some name)).map Prod.fst =
        Except.ok (ConfigReader.buildBaseUrl ev uc none)) ∧
    (truthy (ev "BASE_URL") = false → cfg.urlConfig = none →
      cfg.baseUrl ≠ "" →
      (ConfigReader.getBaseUrl tbl ev st (some name)).map Prod.fst =
        Except.ok cfg.baseUrl) ∧
    (truthy (ev "BASE_URL") = false → cfg.urlConfig = none →
      cfg.baseUrl = "" →
      ConfigReader.getBaseUrl tbl ev st (some name) =
        Except.error ("No baseUrl or urlConfig found for environment: " ++
          cfg.name)) := by
  obtain ⟨st', hge⟩ := getEnvironmentConfig_ok tbl ev st name cfg h hname hne
  refine ⟨?_, ?_, ?_, ?_⟩
  · intro b hb hbne
    have ht : truthy (some b) = true := by simp [truthy, hbne]
    simp [ConfigReader.getBaseUrl, hb, ht, Except.map]
  · intro hf uc huc
    simp [ConfigReader.getBaseUrl, hf, hge, huc, Except.map]
  · intro hf huc hb
    simp [ConfigReader.getBaseUrl, hf, hge, huc, hb, Except.map]
  · intro hf huc hb
    simp [ConfigReader.getBaseUrl, hf, hge, huc, hb]

/-- C2 witness: on the shipped table, a set `BASE_URL` wins over `QA`'s
`urlConfig`, and `local` (no `urlConfig`) falls back to its legacy
`baseUrl`. -/
theorem getBaseUrl_precedence_witness :
    (ConfigReader.getBaseUrl testConfig baseOvEnv ConfigReader.initialState
      (some "QA")).map Prod.fst = Except.ok "http://override.example" ∧
    (ConfigReader.getBaseUrl testConfig emptyEnv ConfigReader.initialState
      (some "local")).map Prod.fst = Except.ok "http://localhost:3000" := by
  constructor
  · exact (getBaseUrl_precedence testConfig baseOvEnv ConfigReader.initialState
      "QA" qaConfig (initial_cacheConsistent _) (by decide) (by decide)).1
      "http://override.example" rfl (by decide)
  · exact (getBaseUrl_precedence testConfig emptyEnv ConfigReader.initialState
      "local" localConfig (initial_cacheConsistent _) (by decide)
      (by decide)).2.2.1 rfl rfl (by decide)

/-- C3 (code-bug evaluation): `setEnvironment("dev")` succeeds, yet the
resulting state has no explicit environment (the `clearCache()` it calls
nulls `currentEnvironment`), so a subsequent `getEnvironmentName()` with
`TEST_ENV` unset returns the default `QA`, not `dev`. -/
theorem setEnvironment_discards_explicit_name :
    ConfigReader.hasEnvironment testConfig "dev" = true ∧
    (ConfigReader.setEnvironment testConfig ConfigReader.initialState
      "dev").map (fun st =>
        (st.currentEnvironment, ConfigReader.getEnvironmentName st emptyEnv)) =
      Except.ok (none, "QA") := by
  exact ⟨by decide, rfl⟩

/-- C4 (code-bug evaluation): the shipped table satisfies the section-3
invariants, yet `validateConfig` rejects it, demanding a non-empty `baseUrl`
even for environments that carry a `urlConfig`; on a table whose one
environment has an empty credentials mapping (and a non-empty `baseUrl`) it
does fail with the no-credentials error naming that environment. -/
theorem validateConfig_rejects_shipped_table :
    specTableInvariants testConfig = true ∧
    ConfigReader.validateConfig testConfig =
      Except.error "Environment \"dev\" missing required field: baseUrl" ∧
    ConfigReader.validateConfig [("e1", emptyCredConfig)] =
      Except.error "Environment \"e1\" has no credentials defined" := by
  exact ⟨by decide, rfl, rfl⟩

/-- C5 counterexample: after `setEnvironment("dev")` and `clearCache()`,
`getEnvironmentName()` (with `TEST_ENV` unset) returns `QA`, not the
explicitly-set `dev`: the explicit value is not preserved. -/
theorem clearCache_discards_explicit_name_cex :
    (ConfigReader.setEnvironment testConfig ConfigReader.initialState
      "dev").map (fun st =>
        ConfigReader.getEnvironmentName (ConfigReader.clearCache st) emptyEnv) =
      Except.ok "QA" ∧
    (Except.ok "QA" : Except String String) ≠ Except.ok "dev" := by
  constructor
  · rfl
  · intro hcontra
    exact absurd (Except.ok.inj hcontra) (by decide)

/-- C5 amended: `clearCache()` drops all cached entries and also resets the
explicitly-set active environment to unset, so a subsequent
`getEnvironmentName()` falls back to the `TEST_ENV` override or the default
`QA`; `setCaching(false)` immediately clears the cache the same way. -/
theorem clearCache_amended (st : ConfigReader.ReaderState) (ev : Env) :
    (ConfigReader.clearCache st).cache = [] ∧
    (ConfigReader.clearCache st).currentEnvironment = none ∧
    ConfigReader.getEnvironmentName (ConfigReader.clearCache st) ev =
      tsOrOpt (ev "TEST_ENV") "QA" ∧
    (ConfigReader.setCaching st false).cache = [] ∧
    (ConfigReader.setCaching st false).currentEnvironment = none ∧
    (ConfigReader.setCaching st false).cacheEnabled = false :=
  ⟨rfl, rfl, rfl, rfl, rfl, rfl⟩

/-- C6: whenever `getBaseUrl` and `getDomainPath` both succeed, `getUrl` is
exactly `stripTrailingSlash` of the base URL concatenated with
`ensureLeadingSlash` of the path. -/
theorem getUrl_strip_ensure (tbl : Table) (ev : Env)
    (st st1 st2 : ConfigReader.ReaderState) (pathKey : String)
    (envName : Option String) (b p : String)
    (hb : ConfigReader.getBaseUrl tbl ev st envName = Except.ok (b, st1))
    (hp : ConfigReader.getDomainPath tbl ev st1 pathKey envName =
      Except.ok (p, st2)) :
    ConfigReader.getUrl tbl ev st pathKey envName =
      Except.ok (stripTrailingSlash b ++ ensureLeadingSlash p, st2) := by
  simp [ConfigReader.getUrl, hb, hp, ConfigReader.cleanBase,
    ConfigReader.cleanPath, stripTrailingSlash, ensureLeadingSlash]

/-- C6 witness: a base-URL override ending in a slash and the slash-less
`site` path join as `http://x/QA` (one slash). -/
theorem getUrl_strip_ensure_witness :
    ConfigReader.getUrl testConfig slashOvEnv ConfigReader.initialState
      "site" (some "QA") =
      Except.ok ("http://x/QA",
        ⟨[("env_QA", qaConfig)], true, none⟩) := by
  have h := getUrl_strip_ensure testConfig slashOvEnv ConfigReader.initialState
    ConfigReader.initialState ⟨[("env_QA", qaConfig)], true, none⟩ "site"
    (some "QA") "http://x/" "QA" rfl rfl
  rw [show stripTrailingSlash "http://x/" ++ ensureLeadingSlash "QA" =
    "http://x/QA" from by decide] at h
  exact h

/-- C7 counterexample: with the full-base-URL override slot set,
`getBaseUrl` on a name absent from the table returns the override instead of
failing, refuting the claim that every public lookup fails on unknown
names. -/
theorem unknownEnv_lookup_cex :
    lookupStr testConfig "nonexistent" = none ∧
    (ConfigReader.getBaseUrl testConfig baseOvEnv ConfigReader.initialState
      (some "nonexistent")).map Prod.fst =
      Except.ok "http://override.example" :=
  ⟨by decide, rfl⟩

/-- C7 amended: for a name absent from the table, `getEnvironmentConfig`,
`getDomainPath` and `getCredentials` always fail with the
unknown-environment error (never returning a default), and `getBaseUrl`
fails the same way provided the full-base-URL override slot is not set
non-empty (when it is, `getBaseUrl` returns the override without consulting
the table). -/
theorem unknownEnv_lookups_fail (tbl : Table) (ev : Env)
    (st : ConfigReader.ReaderState) (name : String)
    (h : cacheConsistent tbl st) (hname : lookupStr tbl name = none)
    (hne : name ≠ "") :
    ConfigReader.getEnvironmentConfig tbl ev st (some name) =
      Except.error (ConfigReader.unknownEnvMsg tbl name) ∧
    (∀ pathKey, ConfigReader.getDomainPath tbl ev st pathKey (some name) =
      Except.error (ConfigReader.unknownEnvMsg tbl name)) ∧
    (∀ ck, ConfigReader.getCredentials tbl ev st ck (some name) =
      Except.error (ConfigReader.unknownEnvMsg tbl name)) ∧
    (truthy (ev "BASE_URL") = false →
      ConfigReader.getBaseUrl tbl ev st (some name) =
        Except.error (ConfigReader.unknownEnvMsg tbl name)) := by
  have hge := getEnvironmentConfig_err tbl ev st name h hname hne
  refine ⟨hge, ?_, ?_, ?_⟩
  · intro pathKey; simp [ConfigReader.getDomainPath, hge]
  · intro ck; simp [ConfigReader.getCredentials, hge]
  · intro hf; simp [ConfigReader.getBaseUrl, hf, hge]

/-- C7 amended witness: with no overrides set, all four lookups fail with
the unknown-environment error for the name `nonexistent`. -/
theorem unknownEnv_lookups_fail_witness :
    ConfigReader.getEnvironmentConfig testConfig emptyEnv
      ConfigReader.initialState (some "nonexistent") =
      Except.error (ConfigReader.unknownEnvMsg testConfig "nonexistent") ∧
    ConfigReader.getDomainPath testConfig emptyEnv ConfigReader.initialState
      "login" (some "nonexistent") =
      Except.error (ConfigReader.unknownEnvMsg testConfig "nonexistent") ∧
    ConfigReader.getCredentials testConfig emptyEnv ConfigReader.initialState
      "admin" (some "nonexistent") =
      Except.error (ConfigReader.unknownEnvMsg testConfig "nonexistent") ∧
    ConfigReader.getBaseUrl testConfig emptyEnv ConfigReader.initialState
      (some "nonexistent") =
      Except.error (ConfigReader.unknownEnvMsg testConfig "nonexistent") := by
  obtain ⟨h1, h2, h3, h4⟩ := unknownEnv_lookups_fail testConfig emptyEnv
    ConfigReader.initialState "nonexistent" (initial_cacheConsistent _)
    (by decide) (by decide)
  exact ⟨h1, h2 "login", h3 "admin", h4 rfl⟩

/-- C8: on the shipped table, `getDomainPath` returns the stored path for a
present key and fails with the unknown-path error (which enumerates that
environment's path keys) exactly for an absent key; `getCredentials` fails
with the unknown-credential error (enumerating credential keys) for an
absent credential key. -/
theorem getDomainPath_getCredentials_keys (ev : Env)
    (st : ConfigReader.ReaderState) (h : cacheConsistent testConfig st)
    (name : String) (cfg : TestEnvironmentConfig)
    (hname : lookupStr testConfig name = some cfg) :
    (∀ pathKey p, lookupStr cfg.domainPaths pathKey = some p →
      (ConfigReader.getDomainPath testConfig ev st pathKey
        (some name)).map Prod.fst = Except.ok p) ∧
    (∀ pathKey, lookupStr cfg.domainPaths pathKey = none →
      ConfigReader.getDomainPath testConfig ev st pathKey (some name) =
        Except.error (ConfigReader.unknownPathMsg cfg pathKey)) ∧
    (∀ ck, lookupStr cfg.credentials ck = none →
      ConfigReader.getCredentials testConfig ev st ck (some name) =
        Except.error (ConfigReader.unknownCredMsg cfg ck)) := by
  have hne : name ≠ "" := by
    intro he
    subst he
    rw [show lookupStr testConfig "" = (none : Option TestEnvironmentConfig)
      from by decide] at hname
    cases hname
  obtain ⟨st', hge⟩ :=
    getEnvironmentConfig_ok testConfig ev st name cfg h hname hne
  have hmem := lookupStr_mem testConfig name cfg hname
  have hpaths : ∀ q ∈ cfg.domainPaths, q.2 ≠ "" := by
    have hall : testConfig.all
        (fun pr => pr.2.domainPaths.all (fun q => q.2 != "")) = true := by
      decide
    intro q hq
    have h1 := (List.all_eq_true.mp hall) _ hmem
    have h2 := (List.all_eq_true.mp h1) _ hq
    simpa using h2
  refine ⟨?_, ?_, ?_⟩
  · intro pathKey p hp
    have hpne : p ≠ "" := hpaths (pathKey, p) (lookupStr_mem _ _ _ hp)
    simp [ConfigReader.getDomainPath, hge, hp, hpne, Except.map]
  · intro pathKey hp
    simp [ConfigReader.getDomainPath, hge, hp]
  · intro ck hc
    simp [ConfigReader.getCredentials, hge, hc]

/-- C8 witness: for `QA`, the present key `home` resolves to `/home`, while
the absent key `bogus` yields the enumerating unknown-path and
unknown-credential errors. -/
theorem getDomainPath_getCredentials_keys_witness :
    (ConfigReader.getDomainPath testConfig emptyEnv ConfigReader.initialState
      "home" (some "QA")).map Prod.fst = Except.ok "/home" ∧
    ConfigReader.getDomainPath testConfig emptyEnv ConfigReader.initialState
      "bogus" (some "QA") =
      Except.error (ConfigReader.unknownPathMsg qaConfig "bogus") ∧
    ConfigReader.getCredentials testConfig emptyEnv ConfigReader.initialState
      "bogus" (some "QA") =
      Except.error (ConfigReader.unknownCredMsg qaConfig "bogus") := by
  obtain ⟨h1, h2, h3⟩ := getDomainPath_getCredentials_keys emptyEnv
    ConfigReader.initialState (initial_cacheConsistent _) "QA" qaConfig
    (by decide)
  exact ⟨h1 "home" "/home" (by decide), h2 "bogus" (by decide),
    h3 "bogus" (by decide)⟩

/-- C9: on the shipped table, with no override slots set,
`getUrl("login", "QA")` is exactly
`https://qa2repohighway.devservices.dh.com/go.aspx`. -/
theorem getUrl_login_QA :
    (ConfigReader.getUrl testConfig emptyEnv ConfigReader.initialState
      "login" (some "QA")).map Prod.fst =
      Except.ok "https://qa2repohighway.devservices.dh.com/go.aspx" := rfl

/-- C10: replacing every present-but-empty override slot by an absent one
changes nothing: `getBaseUrl` (the `BASE_URL` slot), `buildBaseUrl` (the
`ENV_PREFIX` and `SUBDOMAIN` slots) and `getCredentials` (the derived
username/password slots) each return identical results, so an explicitly-set
empty override behaves exactly like an absent one. -/
theorem emptyOverride_eq_absent (tbl : Table) (ev : Env)
    (st : ConfigReader.ReaderState) (envName : Option String) (ck : String)
    (uc : UrlConfig) (po : Option String) :
    ConfigReader.getBaseUrl tbl (normalizeEnv ev) st envName =
      ConfigReader.getBaseUrl tbl ev st envName ∧
    ConfigReader.buildBaseUrl (normalizeEnv ev) uc po =
      ConfigReader.buildBaseUrl ev uc po ∧
    ConfigReader.getCredentials tbl (normalizeEnv ev) st ck envName =
      ConfigReader.getCredentials tbl ev st ck envName :=
  ⟨getBaseUrl_normalize tbl ev st envName, buildBaseUrl_normalize ev uc po,
   getCredentials_normalize tbl ev st ck envName⟩
